import Mathlib

/-!
# Verification of the incremental-archiving sync engine (backupGDrive.pyw)

Shallow embedding of the core sync decision engine:

* `get_file_fingerprint`, `is_hidden`, `process_file` embed the Python
  functions of the same names.  Filesystem calls that may raise are modelled
  as `Except String` values supplied in a `FileEnv` record (one field per
  call site of `process_file`), and the global `SEEN_FILES_FINGERPRINTS`
  set is threaded explicitly as a `Finset Fingerprint`.
* `ProcResult` records, besides the `CopyOutcome`, the observable effects of
  one `process_file` call: whether the destination-existence check ran,
  which directory a `mkdir` was issued on, and whether `shutil.copy2` ran.
* Directory trees are modelled by the inductive `Forest`; `osWalk` embeds the
  `os.walk`-based traversal of `sync_folder_recursive` (files of a level
  before its subtrees, as `os.walk` yields them top-down), and `specialWalk`
  embeds the hidden-filtering top-level loop of `sync_documents_special`.
  A missing source root is the `none` case of an `Option Forest` argument.
* `runSync` folds `process_file` over the candidate list a walker produced,
  threading the registry, which models one sequential run.

Modification times are rationals (Python floats ordered by the usual order);
`int_trunc` embeds Python's `int()` truncation toward zero used by the
fingerprint.
-/

namespace BackupGDrive

/-- A filesystem path, as its list of name components. -/
abbrev Path := List String

/-- The part of an `os.stat` result that the engine reads for files. -/
structure Stat where
  st_size : Nat
  st_mtime : ℚ
  deriving DecidableEq, Repr

/-- Python's `int()` applied to a timestamp: truncation toward zero
(`Int.tdiv` is T-division). -/
def int_trunc (q : ℚ) : ℤ := q.num.tdiv q.den

/-- `(path.name, st.st_size, int(st.st_mtime))`. -/
abbrev Fingerprint := String × Nat × ℤ

/-- `path.name`: the last component of a path. -/
def pathName (p : Path) : String := p.getLastD ""

/-- `get_file_fingerprint(path)`: `path.stat()` may raise, in which case the
function returns `None`; otherwise the (name, size, truncated-mtime) triple. -/
def get_file_fingerprint (name : String) (statRes : Except String Stat) :
    Option Fingerprint :=
  match statRes with
  | .ok st => some (name, st.st_size, int_trunc st.st_mtime)
  | .error _ => none

/-- `stat.FILE_ATTRIBUTE_HIDDEN` (the Windows hidden bit). -/
def FILE_ATTRIBUTE_HIDDEN : Nat := 2

/-- `is_hidden(path)`: the masked attribute bit, with any exception from the
attribute read caught and turned into `False`. -/
def is_hidden (attrRead : Except String Nat) : Bool :=
  match attrRead with
  | .ok attrs => decide ((attrs &&& FILE_ATTRIBUTE_HIDDEN) ≠ 0)
  | .error _ => false

/-- The outcome of evaluating one candidate file (spec's `CopyOutcome`).
`Failed` carries the reported source path and the underlying error text,
as printed by the `except` branch of `process_file`. -/
inductive CopyOutcome where
  | Copied : CopyOutcome
  | SkippedDuplicate : CopyOutcome
  | SkippedUnchanged : CopyOutcome
  | Failed : Path → String → CopyOutcome
  deriving DecidableEq, Repr

/-- The filesystem's answers to the calls one `process_file` invocation can
make, one field per call site; `.error e` means that call raises with
message `e`. -/
structure FileEnv where
  fpStat : Except String Stat
  dstExists : Except String Bool
  srcStat : Except String Stat
  dstStat : Except String Stat
  mkdir : Except String Unit
  copy : Except String Unit
  deriving Repr

/-- Result of one `process_file` call: outcome, updated registry, and the
observable destination effects (`dstChecked`: was `dst_file.exists()`
called; `mkdirOn`: the directory a `mkdir(parents=True)` was issued on, if
any; `copyAttempted`: was `shutil.copy2` called). -/
structure ProcResult where
  outcome : CopyOutcome
  reg : Finset Fingerprint
  dstChecked : Bool
  mkdirOn : Option Path
  copyAttempted : Bool

/-- Step 3 of `process_file`: `dst_file.parent.mkdir(parents=True,
exist_ok=True)` followed by `shutil.copy2`, inside the `try`. -/
def process_copy (src dst : Path) (env : FileEnv) (reg : Finset Fingerprint) :
    ProcResult :=
  match env.mkdir with
  | .error e =>
      { outcome := .Failed src e, reg := reg, dstChecked := true,
        mkdirOn := some dst.dropLast, copyAttempted := false }
  | .ok _ =>
      match env.copy with
      | .error e =>
          { outcome := .Failed src e, reg := reg, dstChecked := true,
            mkdirOn := some dst.dropLast, copyAttempted := true }
      | .ok _ =>
          { outcome := .Copied, reg := reg, dstChecked := true,
            mkdirOn := some dst.dropLast, copyAttempted := true }

/-- The `try` block of `process_file`: the destination-existence check, the
size/mtime comparison (`size_match`, `time_match`), then the copy step; any
exception is caught and reported with the source path and the error text. -/
def process_try (src dst : Path) (env : FileEnv) (reg : Finset Fingerprint) :
    ProcResult :=
  match env.dstExists with
  | .error e =>
      { outcome := .Failed src e, reg := reg, dstChecked := true,
        mkdirOn := none, copyAttempted := false }
  | .ok true =>
      match env.srcStat with
      | .error e =>
          { outcome := .Failed src e, reg := reg, dstChecked := true,
            mkdirOn := none, copyAttempted := false }
      | .ok src_stat =>
          match env.dstStat with
          | .error e =>
              { outcome := .Failed src e, reg := reg, dstChecked := true,
                mkdirOn := none, copyAttempted := false }
          | .ok dst_stat =>
              if src_stat.st_size = dst_stat.st_size ∧
                  src_stat.st_mtime ≤ dst_stat.st_mtime + 5 then
                { outcome := .SkippedUnchanged, reg := reg, dstChecked := true,
                  mkdirOn := none, copyAttempted := false }
              else
                process_copy src dst env reg
  | .ok false => process_copy src dst env reg

/-- `process_file(src_file, dst_file)`: global fingerprint de-duplication
(insert before the `try`), then the `try` block. -/
def process_file (src dst : Path) (env : FileEnv) (reg : Finset Fingerprint) :
    ProcResult :=
  match get_file_fingerprint (pathName src) env.fpStat with
  | some fp =>
      if fp ∈ reg then
        { outcome := .SkippedDuplicate, reg := reg, dstChecked := false,
          mkdirOn := none, copyAttempted := false }
      else
        process_try src dst env (insert fp reg)
  | none => process_try src dst env reg

/-- A candidate file: (source path, destination path), as handed by a walker
to `process_file`. -/
abbrev Candidate := Path × Path

/-- One sequential run: `process_file` over a list of candidates (each with
the filesystem's answers for it), threading the shared fingerprint
registry. -/
def runSync : List (Candidate × FileEnv) → Finset Fingerprint →
    List ProcResult × Finset Fingerprint
  | [], reg => ([], reg)
  | (c, env) :: rest, reg =>
      let r := process_file c.1 c.2 env reg
      let next := runSync rest r.reg
      (r :: next.1, next.2)

/-- A directory's contents: a sequence of entries, each a file or a
subdirectory, carrying the result of reading its hidden-attribute word
(`.error` = the attribute read raises). -/
inductive Forest where
  | nil : Forest
  | file (name : String) (attrRead : Except String Nat) (rest : Forest) : Forest
  | dir (name : String) (attrRead : Except String Nat) (children rest : Forest) : Forest

/-- The candidates for the regular files directly in a directory (the
`files` list `os.walk` yields for it). -/
def levelFiles (src dst : Path) : Forest → List Candidate
  | .nil => []
  | .file name _ rest => (src ++ [name], dst ++ [name]) :: levelFiles src dst rest
  | .dir _ _ _ rest => levelFiles src dst rest

/-- The candidates contributed by the subdirectories of a directory, in
`os.walk` top-down order. -/
def osWalkDirs (src dst : Path) : Forest → List Candidate
  | .nil => []
  | .file _ _ rest => osWalkDirs src dst rest
  | .dir name _ children rest =>
      (levelFiles (src ++ [name]) (dst ++ [name]) children ++
        osWalkDirs (src ++ [name]) (dst ++ [name]) children) ++
      osWalkDirs src dst rest

/-- `os.walk(src_folder)` as used by `sync_folder_recursive`: for every
directory top-down, each file at `root/file` becomes the candidate
`(root/file, dst_folder/rel_path/file)`. -/
def osWalk (src dst : Path) (f : Forest) : List Candidate :=
  levelFiles src dst f ++ osWalkDirs src dst f

/-- `sync_folder_recursive(src_folder, dst_folder)`: a silent no-op when the
source root does not exist (`none`), otherwise the full `os.walk`
traversal. -/
def sync_folder_recursive (src dst : Path) (root : Option Forest) :
    List Candidate :=
  match root with
  | none => []
  | some f => osWalk src dst f

/-- The `for item in src_root.iterdir()` loop of `sync_documents_special`:
hidden entries are skipped; a non-hidden directory is delegated whole to
`sync_folder_recursive`; a non-hidden file goes straight to the evaluator. -/
def specialWalk (src dst : Path) : Forest → List Candidate
  | .nil => []
  | .file name attrRead rest =>
      if is_hidden attrRead then specialWalk src dst rest
      else (src ++ [name], dst ++ [name]) :: specialWalk src dst rest
  | .dir name attrRead children rest =>
      if is_hidden attrRead then specialWalk src dst rest
      else osWalk (src ++ [name]) (dst ++ [name]) children ++
        specialWalk src dst rest

/-- `sync_documents_special(src_root, dst_root)`: a silent no-op when the
source root does not exist, otherwise the filtered top-level walk. -/
def sync_documents_special (src dst : Path) (root : Option Forest) :
    List Candidate :=
  match root with
  | none => []
  | some f => specialWalk src dst f

/-- Rewrite every hidden-attribute word in a forest (the traversals that
never consult the attribute are invariant under this). -/
def mapAttrs (g : Except String Nat → Except String Nat) : Forest → Forest
  | .nil => .nil
  | .file name a rest => .file name (g a) (mapAttrs g rest)
  | .dir name a children rest => .dir name (g a) (mapAttrs g children) (mapAttrs g rest)

/-- Specification-side definition: the relative paths of the regular files directly
in a directory ("the destination path is the same relative path re-rooted
under dstRoot"). -/
def levelFilePaths : Forest → List Path
  | .nil => []
  | .file name _ rest => [name] :: levelFilePaths rest
  | .dir _ _ _ rest => levelFilePaths rest

/-- Specification-side definition: the relative paths of the regular files in the
subdirectories of a directory. -/
def subFilePaths : Forest → List Path
  | .nil => []
  | .file _ _ rest => subFilePaths rest
  | .dir name _ children rest =>
      ((levelFilePaths children ++ subFilePaths children).map
        (fun p => name :: p)) ++ subFilePaths rest

/-- Specification-side definition: the relative paths of all regular files anywhere
in a directory tree, with multiplicity. -/
def relFilePaths (f : Forest) : List Path :=
  levelFilePaths f ++ subFilePaths f

/-! ## Basic lemmas about the evaluator -/

theorem process_copy_reg (src dst : Path) (env : FileEnv) (reg : Finset Fingerprint) :
    (process_copy src dst env reg).reg = reg := by
  unfold process_copy
  cases env.mkdir with
  | error e => rfl
  | ok u =>
      cases env.copy with
      | error e => rfl
      | ok u => rfl

theorem process_copy_mkdirOn (src dst : Path) (env : FileEnv) (reg : Finset Fingerprint) :
    (process_copy src dst env reg).mkdirOn = some dst.dropLast := by
  unfold process_copy
  cases env.mkdir with
  | error e => rfl
  | ok u =>
      cases env.copy with
      | error e => rfl
      | ok u => rfl

theorem process_copy_outcome (src dst : Path) (env : FileEnv) (reg : Finset Fingerprint) :
    (process_copy src dst env reg).outcome = .Copied ∨
      ∃ e, (process_copy src dst env reg).outcome = .Failed src e := by
  unfold process_copy
  cases env.mkdir with
  | error e => exact Or.inr ⟨e, rfl⟩
  | ok u =>
      cases env.copy with
      | error e => exact Or.inr ⟨e, rfl⟩
      | ok u => exact Or.inl rfl

theorem process_try_reg (src dst : Path) (env : FileEnv) (reg : Finset Fingerprint) :
    (process_try src dst env reg).reg = reg := by
  unfold process_try
  cases env.dstExists with
  | error e => rfl
  | ok b =>
      cases b with
      | false => exact process_copy_reg src dst env reg
      | true =>
          cases env.srcStat with
          | error e => rfl
          | ok s =>
              cases env.dstStat with
              | error e => rfl
              | ok d =>
                  by_cases h : s.st_size = d.st_size ∧ s.st_mtime ≤ d.st_mtime + 5
                  · simp only [if_pos h]
                  · simp only [if_neg h]
                    exact process_copy_reg src dst env reg

theorem process_try_dstChecked (src dst : Path) (env : FileEnv) (reg : Finset Fingerprint) :
    (process_try src dst env reg).dstChecked = true := by
  unfold process_try process_copy
  cases env.dstExists with
  | error e => rfl
  | ok b =>
      cases b with
      | false =>
          cases env.mkdir with
          | error e => rfl
          | ok u => cases env.copy with
            | error e => rfl
            | ok u => rfl
      | true =>
          cases env.srcStat with
          | error e => rfl
          | ok s =>
              cases env.dstStat with
              | error e => rfl
              | ok d =>
                  by_cases h : s.st_size = d.st_size ∧ s.st_mtime ≤ d.st_mtime + 5
                  · simp only [if_pos h]
                  · simp only [if_neg h]
                    cases env.mkdir with
                    | error e => rfl
                    | ok u => cases env.copy with
                      | error e => rfl
                      | ok u => rfl

theorem process_file_of_dup (src dst : Path) (env : FileEnv) (reg : Finset Fingerprint)
    (fp : Fingerprint) (hfp : get_file_fingerprint (pathName src) env.fpStat = some fp)
    (hmem : fp ∈ reg) :
    process_file src dst env reg =
      ⟨.SkippedDuplicate, reg, false, none, false⟩ := by
  unfold process_file
  rw [hfp]
  simp only [if_pos hmem]

theorem process_file_of_new (src dst : Path) (env : FileEnv) (reg : Finset Fingerprint)
    (fp : Fingerprint) (hfp : get_file_fingerprint (pathName src) env.fpStat = some fp)
    (hnew : fp ∉ reg) :
    process_file src dst env reg = process_try src dst env (insert fp reg) := by
  unfold process_file
  rw [hfp]
  simp only [if_neg hnew]

theorem process_file_of_none (src dst : Path) (env : FileEnv) (reg : Finset Fingerprint)
    (hfp : get_file_fingerprint (pathName src) env.fpStat = none) :
    process_file src dst env reg = process_try src dst env reg := by
  unfold process_file
  rw [hfp]

theorem reg_subset_process_file (src dst : Path) (env : FileEnv) (reg : Finset Fingerprint) :
    reg ⊆ (process_file src dst env reg).reg := by
  cases hfp : get_file_fingerprint (pathName src) env.fpStat with
  | none => rw [process_file_of_none src dst env reg hfp, process_try_reg]
  | some fp =>
      by_cases hmem : fp ∈ reg
      · rw [process_file_of_dup src dst env reg fp hfp hmem]
      · rw [process_file_of_new src dst env reg fp hfp hmem, process_try_reg]
        exact Finset.subset_insert fp reg

theorem mem_reg_process_file (src dst : Path) (env : FileEnv) (reg : Finset Fingerprint)
    (fp : Fingerprint) (hfp : get_file_fingerprint (pathName src) env.fpStat = some fp) :
    fp ∈ (process_file src dst env reg).reg := by
  by_cases hmem : fp ∈ reg
  · rw [process_file_of_dup src dst env reg fp hfp hmem]
    exact hmem
  · rw [process_file_of_new src dst env reg fp hfp hmem, process_try_reg]
    exact Finset.mem_insert_self fp reg

theorem runSync_length (items : List (Candidate × FileEnv)) (reg : Finset Fingerprint) :
    ((runSync items reg).1).length = items.length := by
  induction items generalizing reg with
  | nil => rfl
  | cons it rest ih =>
      obtain ⟨c, env⟩ := it
      simp only [runSync, List.length_cons]
      rw [ih]

theorem runSync_reg_subset (items : List (Candidate × FileEnv)) (reg : Finset Fingerprint) :
    reg ⊆ (runSync items reg).2 := by
  induction items generalizing reg with
  | nil => exact Finset.Subset.refl reg
  | cons it rest ih =>
      obtain ⟨c, env⟩ := it
      exact (reg_subset_process_file c.1 c.2 env reg).trans
        (ih (process_file c.1 c.2 env reg).reg)

theorem process_copy_copyAttempted (src dst : Path) (env : FileEnv)
    (reg : Finset Fingerprint) (hmk : env.mkdir = Except.ok ()) :
    (process_copy src dst env reg).copyAttempted = true := by
  unfold process_copy
  rw [hmk]
  cases env.copy with
  | error e => rfl
  | ok u => rfl

theorem process_try_char (src dst : Path) (env : FileEnv) (reg : Finset Fingerprint)
    (s d : Stat) (hde : env.dstExists = Except.ok true)
    (hs : env.srcStat = Except.ok s) (hd : env.dstStat = Except.ok d) :
    process_try src dst env reg =
      if s.st_size = d.st_size ∧ s.st_mtime ≤ d.st_mtime + 5 then
        ⟨.SkippedUnchanged, reg, true, none, false⟩
      else process_copy src dst env reg := by
  unfold process_try
  rw [hde, hs, hd]

/-- Every possible shape of the registry after `process_file`: the fingerprint
is inserted when new, otherwise nothing changes. -/
theorem process_file_shape (src dst : Path) (env : FileEnv) (reg : Finset Fingerprint) :
    process_file src dst env reg = process_try src dst env reg ∨
    (∃ fp, get_file_fingerprint (pathName src) env.fpStat = some fp ∧ fp ∉ reg ∧
      process_file src dst env reg = process_try src dst env (insert fp reg)) ∨
    (∃ fp, get_file_fingerprint (pathName src) env.fpStat = some fp ∧ fp ∈ reg ∧
      process_file src dst env reg = ⟨.SkippedDuplicate, reg, false, none, false⟩) := by
  cases hfp : get_file_fingerprint (pathName src) env.fpStat with
  | none => exact Or.inl (process_file_of_none src dst env reg hfp)
  | some fp =>
      by_cases hmem : fp ∈ reg
      · exact Or.inr (Or.inr ⟨fp, rfl, hmem, process_file_of_dup src dst env reg fp hfp hmem⟩)
      · exact Or.inr (Or.inl ⟨fp, rfl, hmem, process_file_of_new src dst env reg fp hfp hmem⟩)

/-- C1: with the destination present, a readable pair of stats and no
registry duplicate, `process_file` returns `SkippedUnchanged` — copying
nothing and writing nothing at the destination — exactly when the sizes
agree and the source mtime is at most the destination mtime plus 5 seconds;
when either test fails it proceeds to the copy step (`mkdir` on the
destination parent, then `shutil.copy2`). -/
theorem c1_skipped_unchanged_iff (src dst : Path) (env : FileEnv)
    (reg : Finset Fingerprint) (s d : Stat)
    (hdup : ∀ fp, get_file_fingerprint (pathName src) env.fpStat = some fp → fp ∉ reg)
    (hde : env.dstExists = Except.ok true)
    (hs : env.srcStat = Except.ok s) (hd : env.dstStat = Except.ok d) :
    ((process_file src dst env reg).outcome = .SkippedUnchanged ∧
        (process_file src dst env reg).copyAttempted = false ∧
        (process_file src dst env reg).mkdirOn = none ↔
      s.st_size = d.st_size ∧ s.st_mtime ≤ d.st_mtime + 5) ∧
    (¬(s.st_size = d.st_size ∧ s.st_mtime ≤ d.st_mtime + 5) →
      (process_file src dst env reg).mkdirOn = some dst.dropLast ∧
      (env.mkdir = Except.ok () → (process_file src dst env reg).copyAttempted = true)) := by
  have hred : ∃ reg', process_file src dst env reg = process_try src dst env reg' := by
    cases hfp : get_file_fingerprint (pathName src) env.fpStat with
    | none => exact ⟨reg, process_file_of_none src dst env reg hfp⟩
    | some fp =>
        exact ⟨insert fp reg, process_file_of_new src dst env reg fp hfp (hdup fp hfp)⟩
  obtain ⟨reg', hred⟩ := hred
  rw [hred, process_try_char src dst env reg' s d hde hs hd]
  by_cases hcond : s.st_size = d.st_size ∧ s.st_mtime ≤ d.st_mtime + 5
  · rw [if_pos hcond]
    exact ⟨⟨fun _ => hcond, fun _ => ⟨rfl, rfl, rfl⟩⟩, fun hn => absurd hcond hn⟩
  · rw [if_neg hcond]
    constructor
    · constructor
      · intro ⟨ho, _, _⟩
        rcases process_copy_outcome src dst env reg' with hc | ⟨e, hc⟩ <;>
          rw [hc] at ho <;> exact CopyOutcome.noConfusion ho
      · intro h
        exact absurd h hcond
    · intro _
      exact ⟨process_copy_mkdirOn src dst env reg',
        fun hmk => process_copy_copyAttempted src dst env reg' hmk⟩

def statA : Stat := ⟨100, 10⟩

def statOld : Stat := ⟨100, 20⟩

/-- The environment of a candidate whose destination exists with identical
size and an mtime equal to the source's. -/
def envUnchanged : FileEnv := ⟨.ok statA, .ok true, .ok statA, .ok statA, .ok (), .ok ()⟩

theorem c1_skipped_unchanged_iff_witness :
    (process_file ["s", "a.txt"] ["d", "a.txt"] envUnchanged ∅).outcome =
        CopyOutcome.SkippedUnchanged ∧
      (process_file ["s", "a.txt"] ["d", "a.txt"] envUnchanged ∅).copyAttempted = false ∧
      (process_file ["s", "a.txt"] ["d", "a.txt"] envUnchanged ∅).mkdirOn = none :=
  (c1_skipped_unchanged_iff ["s", "a.txt"] ["d", "a.txt"] envUnchanged ∅ statA statA
      (fun fp _ => Finset.not_mem_empty fp) rfl rfl rfl).1.mpr
    ⟨rfl, by norm_num [statA]⟩

theorem process_try_not_dup (src dst : Path) (env : FileEnv) (reg : Finset Fingerprint) :
    (process_try src dst env reg).outcome ≠ .SkippedDuplicate := by
  unfold process_try process_copy
  cases env.dstExists with
  | error e => exact fun h => CopyOutcome.noConfusion h
  | ok b =>
      cases b with
      | false =>
          cases env.mkdir with
          | error e => exact fun h => CopyOutcome.noConfusion h
          | ok u =>
              cases env.copy with
              | error e => exact fun h => CopyOutcome.noConfusion h
              | ok u => exact fun h => CopyOutcome.noConfusion h
      | true =>
          cases env.srcStat with
          | error e => exact fun h => CopyOutcome.noConfusion h
          | ok s =>
              cases env.dstStat with
              | error e => exact fun h => CopyOutcome.noConfusion h
              | ok d =>
                  by_cases hc : s.st_size = d.st_size ∧ s.st_mtime ≤ d.st_mtime + 5
                  · simp only [if_pos hc]
                    exact fun h => CopyOutcome.noConfusion h
                  · simp only [if_neg hc]
                    cases env.mkdir with
                    | error e => exact fun h => CopyOutcome.noConfusion h
                    | ok u =>
                        cases env.copy with
                        | error e => exact fun h => CopyOutcome.noConfusion h
                        | ok u => exact fun h => CopyOutcome.noConfusion h

/-- C2: within one run, of two source files yielding the same fingerprint
(name, size, mtime truncated to seconds), the first encountered — with any
number of other candidates in between, from any task — is never skipped as a
duplicate, while the later one returns `SkippedDuplicate` at once: its
destination is never even checked for existence, no comparison happens, no
`mkdir` and no copy, whatever its own destination path and filesystem
answers are. -/
theorem c2_global_dedup (src1 dst1 src2 dst2 : Path) (env1 env2 : FileEnv)
    (mids : List (Candidate × FileEnv)) (reg0 : Finset Fingerprint) (fp : Fingerprint)
    (h1 : get_file_fingerprint (pathName src1) env1.fpStat = some fp)
    (h2 : get_file_fingerprint (pathName src2) env2.fpStat = some fp)
    (hnew : fp ∉ reg0) :
    (process_file src1 dst1 env1 reg0).outcome ≠ .SkippedDuplicate ∧
    process_file src2 dst2 env2
        (runSync mids (process_file src1 dst1 env1 reg0).reg).2 =
      ⟨.SkippedDuplicate, (runSync mids (process_file src1 dst1 env1 reg0).reg).2,
        false, none, false⟩ := by
  constructor
  · rw [process_file_of_new src1 dst1 env1 reg0 fp h1 hnew]
    exact process_try_not_dup src1 dst1 env1 (insert fp reg0)
  · have hmem : fp ∈ (runSync mids (process_file src1 dst1 env1 reg0).reg).2 :=
      runSync_reg_subset mids (process_file src1 dst1 env1 reg0).reg
        (mem_reg_process_file src1 dst1 env1 reg0 fp h1)
    exact process_file_of_dup src2 dst2 env2 _ fp h2 hmem

/-- The environment of a later candidate carrying the same source fingerprint
but an entirely different destination situation (absent destination,
unreadable stats). -/
def envDupSecond : FileEnv := ⟨.ok statA, .ok false, .error "x", .error "x", .ok (), .ok ()⟩

theorem c2_global_dedup_witness :
    process_file ["t", "a.txt"] ["e", "a.txt"] envDupSecond
        (runSync [] (process_file ["s", "a.txt"] ["d", "a.txt"] envUnchanged ∅).reg).2 =
      ⟨.SkippedDuplicate,
        (runSync [] (process_file ["s", "a.txt"] ["d", "a.txt"] envUnchanged ∅).reg).2,
        false, none, false⟩ :=
  (c2_global_dedup ["s", "a.txt"] ["d", "a.txt"] ["t", "a.txt"] ["e", "a.txt"]
      envUnchanged envDupSecond [] ∅ ("a.txt", 100, int_trunc 10) rfl rfl
      (Finset.not_mem_empty _)).2

/-- C9: a newly computed fingerprint is inserted into the registry up front —
the updated registry is `insert fp reg` for every filesystem behaviour at
the destination, so also when the file then turns out unchanged or its copy
fails — and from then on any source file with that fingerprint is dismissed
as `SkippedDuplicate` without any copy. -/
theorem c9_registered_before_outcome (src dst : Path) (env : FileEnv)
    (reg : Finset Fingerprint) (fp : Fingerprint)
    (hfp : get_file_fingerprint (pathName src) env.fpStat = some fp)
    (hnew : fp ∉ reg) :
    (process_file src dst env reg).reg = insert fp reg ∧
    (∀ src2 dst2 env2,
      get_file_fingerprint (pathName src2) env2.fpStat = some fp →
      process_file src2 dst2 env2 (process_file src dst env reg).reg =
        ⟨.SkippedDuplicate, insert fp reg, false, none, false⟩) := by
  have hreg : (process_file src dst env reg).reg = insert fp reg := by
    rw [process_file_of_new src dst env reg fp hfp hnew, process_try_reg]
  refine ⟨hreg, fun src2 dst2 env2 h2 => ?_⟩
  rw [hreg]
  exact process_file_of_dup src2 dst2 env2 (insert fp reg) fp h2
    (Finset.mem_insert_self fp reg)

/-- The environment of a candidate whose copy raises: the destination is
absent, `mkdir` succeeds, `shutil.copy2` fails. -/
def envFailCopy : FileEnv := ⟨.ok statA, .ok false, .ok statA, .ok statA, .ok (), .error "disk full"⟩

theorem c9_registered_before_outcome_witness :
    (process_file ["s", "a.txt"] ["d", "a.txt"] envFailCopy ∅).reg =
      insert ("a.txt", 100, int_trunc 10) ∅ :=
  (c9_registered_before_outcome ["s", "a.txt"] ["d", "a.txt"] envFailCopy ∅
      ("a.txt", 100, int_trunc 10) rfl (Finset.not_mem_empty _)).1

theorem process_try_exists_err (src dst : Path) (env : FileEnv) (reg : Finset Fingerprint)
    (e : String) (h : env.dstExists = Except.error e) :
    process_try src dst env reg = ⟨.Failed src e, reg, true, none, false⟩ := by
  unfold process_try
  rw [h]

theorem process_try_srcStat_err (src dst : Path) (env : FileEnv) (reg : Finset Fingerprint)
    (e : String) (h1 : env.dstExists = Except.ok true) (h2 : env.srcStat = Except.error e) :
    process_try src dst env reg = ⟨.Failed src e, reg, true, none, false⟩ := by
  unfold process_try
  rw [h1, h2]

theorem process_try_dstStat_err (src dst : Path) (env : FileEnv) (reg : Finset Fingerprint)
    (s : Stat) (e : String) (h1 : env.dstExists = Except.ok true)
    (h2 : env.srcStat = Except.ok s) (h3 : env.dstStat = Except.error e) :
    process_try src dst env reg = ⟨.Failed src e, reg, true, none, false⟩ := by
  unfold process_try
  rw [h1, h2, h3]

theorem process_try_dst_absent (src dst : Path) (env : FileEnv) (reg : Finset Fingerprint)
    (h : env.dstExists = Except.ok false) :
    process_try src dst env reg = process_copy src dst env reg := by
  unfold process_try
  rw [h]

theorem process_copy_mkdir_err (src dst : Path) (env : FileEnv) (reg : Finset Fingerprint)
    (e : String) (h : env.mkdir = Except.error e) :
    process_copy src dst env reg = ⟨.Failed src e, reg, true, some dst.dropLast, false⟩ := by
  unfold process_copy
  rw [h]

theorem process_copy_copy_err (src dst : Path) (env : FileEnv) (reg : Finset Fingerprint)
    (e : String) (h1 : env.mkdir = Except.ok ()) (h2 : env.copy = Except.error e) :
    process_copy src dst env reg = ⟨.Failed src e, reg, true, some dst.dropLast, true⟩ := by
  unfold process_copy
  rw [h1, h2]

theorem process_copy_ok (src dst : Path) (env : FileEnv) (reg : Finset Fingerprint)
    (h1 : env.mkdir = Except.ok ()) (h2 : env.copy = Except.ok ()) :
    process_copy src dst env reg = ⟨.Copied, reg, true, some dst.dropLast, true⟩ := by
  unfold process_copy
  rw [h1, h2]

/-- Every outcome `process_try` can produce; a `Failed` always reports the
source path of the candidate itself. -/
theorem process_try_outcome_cases (src dst : Path) (env : FileEnv) (reg : Finset Fingerprint) :
    (process_try src dst env reg).outcome = .SkippedUnchanged ∨
    (process_try src dst env reg).outcome = .Copied ∨
    ∃ e, (process_try src dst env reg).outcome = .Failed src e := by
  unfold process_try
  cases env.dstExists with
  | error e => exact Or.inr (Or.inr ⟨e, rfl⟩)
  | ok b =>
      cases b with
      | false =>
          rcases process_copy_outcome src dst env reg with h | h
          · exact Or.inr (Or.inl h)
          · exact Or.inr (Or.inr h)
      | true =>
          cases env.srcStat with
          | error e => exact Or.inr (Or.inr ⟨e, rfl⟩)
          | ok s =>
              cases env.dstStat with
              | error e => exact Or.inr (Or.inr ⟨e, rfl⟩)
              | ok d =>
                  by_cases hc : s.st_size = d.st_size ∧ s.st_mtime ≤ d.st_mtime + 5
                  · simp only [if_pos hc]
                    exact Or.inl trivial
                  · simp only [if_neg hc]
                    rcases process_copy_outcome src dst env reg with h | h
                    · exact Or.inr (Or.inl h)
                    · exact Or.inr (Or.inr h)

/-- C4: every exception inside the `try` of `process_file` — raised by the
destination-existence check, either stat of the comparison, the parent
`mkdir`, or `shutil.copy2` — is caught and becomes a `Failed` outcome
carrying the failing candidate's source path and the error text.  The
`mkdir`/`copy2` cases are covered on both entries into the copy step: a
destination that does not exist, and a destination that exists but fails
the size/mtime comparison (the recopy of a changed file).  A `Failed`
never carries any other path, and the run goes on to process every
remaining candidate. -/
theorem c4_exceptions_caught (src dst : Path) (env : FileEnv) (reg : Finset Fingerprint)
    (hdup : ∀ fp, get_file_fingerprint (pathName src) env.fpStat = some fp → fp ∉ reg) :
    (∀ e, env.dstExists = Except.error e →
      (process_file src dst env reg).outcome = .Failed src e) ∧
    (∀ e, env.dstExists = Except.ok true → env.srcStat = Except.error e →
      (process_file src dst env reg).outcome = .Failed src e) ∧
    (∀ s e, env.dstExists = Except.ok true → env.srcStat = Except.ok s →
      env.dstStat = Except.error e →
      (process_file src dst env reg).outcome = .Failed src e) ∧
    (∀ e, env.dstExists = Except.ok false → env.mkdir = Except.error e →
      (process_file src dst env reg).outcome = .Failed src e) ∧
    (∀ e, env.dstExists = Except.ok false → env.mkdir = Except.ok () →
      env.copy = Except.error e →
      (process_file src dst env reg).outcome = .Failed src e) ∧
    (∀ s d e, env.dstExists = Except.ok true → env.srcStat = Except.ok s →
      env.dstStat = Except.ok d →
      ¬(s.st_size = d.st_size ∧ s.st_mtime ≤ d.st_mtime + 5) →
      env.mkdir = Except.error e →
      (process_file src dst env reg).outcome = .Failed src e) ∧
    (∀ s d e, env.dstExists = Except.ok true → env.srcStat = Except.ok s →
      env.dstStat = Except.ok d →
      ¬(s.st_size = d.st_size ∧ s.st_mtime ≤ d.st_mtime + 5) →
      env.mkdir = Except.ok () → env.copy = Except.error e →
      (process_file src dst env reg).outcome = .Failed src e) ∧
    (∀ p e, (process_file src dst env reg).outcome = .Failed p e → p = src) ∧
    (∀ rest reg0,
      ((runSync (((src, dst), env) :: rest) reg0).1).length = rest.length + 1) := by
  have hred : ∃ reg', process_file src dst env reg = process_try src dst env reg' := by
    cases hfp : get_file_fingerprint (pathName src) env.fpStat with
    | none => exact ⟨reg, process_file_of_none src dst env reg hfp⟩
    | some fp =>
        exact ⟨insert fp reg, process_file_of_new src dst env reg fp hfp (hdup fp hfp)⟩
  obtain ⟨reg', hred⟩ := hred
  rw [hred]
  refine ⟨fun e h => ?_, fun e h1 h2 => ?_, fun s e h1 h2 h3 => ?_,
    fun e h1 h2 => ?_, fun e h1 h2 h3 => ?_, fun s d e h1 h2 h3 hne h4 => ?_,
    fun s d e h1 h2 h3 hne h4 h5 => ?_, fun p e h => ?_, fun rest reg0 => ?_⟩
  · rw [process_try_exists_err src dst env reg' e h]
  · rw [process_try_srcStat_err src dst env reg' e h1 h2]
  · rw [process_try_dstStat_err src dst env reg' s e h1 h2 h3]
  · rw [process_try_dst_absent src dst env reg' h1,
      process_copy_mkdir_err src dst env reg' e h2]
  · rw [process_try_dst_absent src dst env reg' h1,
      process_copy_copy_err src dst env reg' e h2 h3]
  · rw [process_try_char src dst env reg' s d h1 h2 h3, if_neg hne,
      process_copy_mkdir_err src dst env reg' e h4]
  · rw [process_try_char src dst env reg' s d h1 h2 h3, if_neg hne,
      process_copy_copy_err src dst env reg' e h4 h5]
  · rcases process_try_outcome_cases src dst env reg' with hc | hc | ⟨e', hc⟩ <;>
      rw [hc] at h
    · exact CopyOutcome.noConfusion h
    · exact CopyOutcome.noConfusion h
    · exact ((CopyOutcome.Failed.injEq _ _ _ _).mp h).1.symm
  · exact runSync_length (((src, dst), env) :: rest) reg0

/-- The environment of a candidate whose destination-existence check raises. -/
def envExistsRaises : FileEnv :=
  ⟨.ok statA, .error "transport endpoint is not connected", .ok statA, .ok statA, .ok (), .ok ()⟩

/-- The environment of a changed candidate (destination exists, source
newer by more than 5 seconds) whose `shutil.copy2` raises on the recopy. -/
def envRecopyFails : FileEnv :=
  ⟨.ok statOld, .ok true, .ok statOld, .ok statA, .ok (), .error "copy failed"⟩

theorem c4_exceptions_caught_witness :
    (process_file ["s", "a.txt"] ["d", "a.txt"] envExistsRaises ∅).outcome =
      CopyOutcome.Failed ["s", "a.txt"] "transport endpoint is not connected" ∧
    (process_file ["s", "a.txt"] ["d", "a.txt"] envRecopyFails ∅).outcome =
      CopyOutcome.Failed ["s", "a.txt"] "copy failed" :=
  ⟨(c4_exceptions_caught ["s", "a.txt"] ["d", "a.txt"] envExistsRaises ∅
        (fun fp _ => Finset.not_mem_empty fp)).1
      "transport endpoint is not connected" rfl,
    (c4_exceptions_caught ["s", "a.txt"] ["d", "a.txt"] envRecopyFails ∅
        (fun fp _ => Finset.not_mem_empty fp)).2.2.2.2.2.2.1
      statOld statA "copy failed" rfl rfl rfl (by norm_num [statOld, statA]) rfl rfl⟩

/-- C5: when the fingerprint stat raises, the registry is left untouched and
no duplicate skip can fire; the candidate still enters the `try` block
(the destination check runs) and, with the destination absent and the copy
calls succeeding, it is copied — a fingerprint failure alone never drops a
file. -/
theorem c5_fingerprint_failure_bypasses_registry (src dst : Path) (env : FileEnv)
    (reg : Finset Fingerprint) (e : String) (hfp : env.fpStat = Except.error e) :
    process_file src dst env reg = process_try src dst env reg ∧
    (process_file src dst env reg).reg = reg ∧
    (process_file src dst env reg).outcome ≠ .SkippedDuplicate ∧
    (process_file src dst env reg).dstChecked = true ∧
    (env.dstExists = Except.ok false → env.mkdir = Except.ok () →
      env.copy = Except.ok () → (process_file src dst env reg).outcome = .Copied) := by
  have hnone : get_file_fingerprint (pathName src) env.fpStat = none := by
    rw [hfp]
    rfl
  have hred := process_file_of_none src dst env reg hnone
  rw [hred]
  refine ⟨rfl, process_try_reg src dst env reg, process_try_not_dup src dst env reg,
    process_try_dstChecked src dst env reg, fun h1 h2 h3 => ?_⟩
  rw [process_try_dst_absent src dst env reg h1, process_copy_ok src dst env reg h2 h3]

/-- The environment of a candidate whose source stat raises at fingerprint
time, with an absent destination and working copy calls. -/
def envNoFingerprint : FileEnv :=
  ⟨.error "stat failed", .ok false, .ok statA, .ok statA, .ok (), .ok ()⟩

theorem c5_fingerprint_failure_bypasses_registry_witness :
    (process_file ["s", "a.txt"] ["d", "a.txt"] envNoFingerprint ∅).reg = ∅ ∧
    (process_file ["s", "a.txt"] ["d", "a.txt"] envNoFingerprint ∅).outcome =
      CopyOutcome.Copied :=
  ⟨(c5_fingerprint_failure_bypasses_registry ["s", "a.txt"] ["d", "a.txt"]
      envNoFingerprint ∅ "stat failed" rfl).2.1,
    (c5_fingerprint_failure_bypasses_registry ["s", "a.txt"] ["d", "a.txt"]
      envNoFingerprint ∅ "stat failed" rfl).2.2.2.2 rfl rfl rfl⟩

/-! ## Lemmas about the walkers -/

theorem levelFiles_mapAttrs (g : Except String Nat → Except String Nat)
    (src dst : Path) (f : Forest) :
    levelFiles src dst (mapAttrs g f) = levelFiles src dst f := by
  induction f with
  | nil => rfl
  | file name a rest ih => simp [mapAttrs, levelFiles, ih]
  | dir name a children rest ihc ihr => simp [mapAttrs, levelFiles, ihr]

theorem osWalkDirs_mapAttrs (g : Except String Nat → Except String Nat)
    (src dst : Path) (f : Forest) :
    osWalkDirs src dst (mapAttrs g f) = osWalkDirs src dst f := by
  induction f generalizing src dst with
  | nil => rfl
  | file name a rest ih => simp [mapAttrs, osWalkDirs, ih]
  | dir name a children rest ihc ihr =>
      simp [mapAttrs, osWalkDirs, levelFiles_mapAttrs, ihc, ihr]

theorem osWalk_mapAttrs (g : Except String Nat → Except String Nat)
    (src dst : Path) (f : Forest) :
    osWalk src dst (mapAttrs g f) = osWalk src dst f := by
  unfold osWalk
  rw [levelFiles_mapAttrs, osWalkDirs_mapAttrs]

/-- C3: under the filtered top-level strategy a hidden immediate entry of the
source root contributes nothing — a hidden file never becomes a candidate
and a hidden directory is never descended into — while a non-hidden file
becomes a candidate and a non-hidden directory is delegated whole to the
recursive walker, which never consults hidden attributes (rewriting every
attribute below the top level leaves its walk unchanged). -/
theorem c3_hidden_filter_top_level_only (src dst : Path) (nameH nameV : String)
    (ha hb : Except String Nat) (h1 : is_hidden ha = true) (h2 : is_hidden hb = false)
    (children rest : Forest) :
    specialWalk src dst (.file nameH ha rest) = specialWalk src dst rest ∧
    specialWalk src dst (.dir nameH ha children rest) = specialWalk src dst rest ∧
    specialWalk src dst (.file nameV hb rest) =
      (src ++ [nameV], dst ++ [nameV]) :: specialWalk src dst rest ∧
    specialWalk src dst (.dir nameV hb children rest) =
      sync_folder_recursive (src ++ [nameV]) (dst ++ [nameV]) (some children) ++
        specialWalk src dst rest ∧
    (∀ g, osWalk (src ++ [nameV]) (dst ++ [nameV]) (mapAttrs g children) =
      osWalk (src ++ [nameV]) (dst ++ [nameV]) children) := by
  refine ⟨?_, ?_, ?_, ?_, fun g => osWalk_mapAttrs g _ _ children⟩
  · simp [specialWalk, h1]
  · simp [specialWalk, h1]
  · simp [specialWalk, h2]
  · simp [specialWalk, sync_folder_recursive, h2]

theorem c3_hidden_filter_top_level_only_witness :
    specialWalk ["r"] ["d"] (Forest.file "h" (Except.ok 2) Forest.nil) =
      specialWalk ["r"] ["d"] Forest.nil ∧
    specialWalk ["r"] ["d"] (Forest.file "v" (Except.ok 0) Forest.nil) =
      (["r", "v"], ["d", "v"]) :: specialWalk ["r"] ["d"] Forest.nil :=
  ⟨(c3_hidden_filter_top_level_only ["r"] ["d"] "h" "v" (Except.ok 2) (Except.ok 0)
      (by simp [is_hidden, FILE_ATTRIBUTE_HIDDEN]) (by simp [is_hidden, FILE_ATTRIBUTE_HIDDEN])
      Forest.nil Forest.nil).1,
    (c3_hidden_filter_top_level_only ["r"] ["d"] "h" "v" (Except.ok 2) (Except.ok 0)
      (by simp [is_hidden, FILE_ATTRIBUTE_HIDDEN]) (by simp [is_hidden, FILE_ATTRIBUTE_HIDDEN])
      Forest.nil Forest.nil).2.2.1⟩

/-- C6: a missing source root makes both walkers silent no-ops — no
candidate is produced, and running an empty candidate list evaluates
nothing, creates nothing and leaves the registry as it was. -/
theorem c6_missing_root_noop (src dst : Path) (reg : Finset Fingerprint) :
    sync_folder_recursive src dst none = [] ∧
    sync_documents_special src dst none = [] ∧
    runSync [] reg = ([], reg) :=
  ⟨rfl, rfl, rfl⟩

/-- C8: an entry whose hidden-attribute read raises counts as not hidden:
`is_hidden` returns `false`, so the filtered top-level walker processes the
entry like a visible one — a file becomes a candidate, a directory is
walked recursively. -/
theorem c8_attr_error_treated_not_hidden (e : String) (src dst : Path) (name : String)
    (children rest : Forest) :
    is_hidden (Except.error e) = false ∧
    specialWalk src dst (.file name (.error e) rest) =
      (src ++ [name], dst ++ [name]) :: specialWalk src dst rest ∧
    specialWalk src dst (.dir name (.error e) children rest) =
      osWalk (src ++ [name]) (dst ++ [name]) children ++ specialWalk src dst rest := by
  refine ⟨rfl, ?_, ?_⟩ <;> simp [specialWalk, is_hidden]

theorem levelFiles_eq_map (src dst : Path) (f : Forest) :
    levelFiles src dst f = (levelFilePaths f).map (fun p => (src ++ p, dst ++ p)) := by
  induction f with
  | nil => rfl
  | file name a rest ih => simp [levelFiles, levelFilePaths, ih]
  | dir name a children rest ihc ihr => simp [levelFiles, levelFilePaths, ihr]

theorem osWalkDirs_eq_map (src dst : Path) (f : Forest) :
    osWalkDirs src dst f = (subFilePaths f).map (fun p => (src ++ p, dst ++ p)) := by
  induction f generalizing src dst with
  | nil => rfl
  | file name a rest ih => simp [osWalkDirs, subFilePaths, ih]
  | dir name a children rest ihc ihr =>
      simp only [osWalkDirs, subFilePaths, levelFiles_eq_map, ihc, ihr,
        List.map_append, List.map_map, List.append_assoc]
      congr 2

theorem osWalk_eq_map (src dst : Path) (f : Forest) :
    osWalk src dst f = (relFilePaths f).map (fun p => (src ++ p, dst ++ p)) := by
  unfold osWalk relFilePaths
  rw [levelFiles_eq_map, osWalkDirs_eq_map, List.map_append]

theorem reroot_injective (src dst : Path) :
    Function.Injective (fun p : Path => (src ++ p, dst ++ p)) := by
  intro p q h
  exact List.append_cancel_left (congrArg Prod.fst h)

/-- C7: over an existing source root the recursive walker produces exactly
one candidate per regular-file occurrence in the tree — the source path is
the file's relative path under the source root and the destination path is
the same relative path re-rooted under the destination root — and each
relative path occurs among the candidates exactly as often as in the tree. -/
theorem c7_recursive_mirror (src dst : Path) (f : Forest) :
    sync_folder_recursive src dst (some f) =
      (relFilePaths f).map (fun p => (src ++ p, dst ++ p)) ∧
    (∀ p : Path,
      @List.count (Path × Path) instBEqOfDecidableEq (src ++ p, dst ++ p)
          (sync_folder_recursive src dst (some f)) =
        @List.count Path instBEqOfDecidableEq p (relFilePaths f)) := by
  have h : sync_folder_recursive src dst (some f) =
      (relFilePaths f).map (fun p => (src ++ p, dst ++ p)) := osWalk_eq_map src dst f
  refine ⟨h, fun p => ?_⟩
  rw [h]
  exact List.count_map_of_injective (relFilePaths f) _ (reroot_injective src dst) p

theorem process_try_mkdir_cases (src dst : Path) (env : FileEnv) (reg : Finset Fingerprint) :
    ((process_try src dst env reg).mkdirOn = none ∧
      ((process_try src dst env reg).outcome = .SkippedUnchanged ∨
        ∃ e, (process_try src dst env reg).outcome = .Failed src e)) ∨
    ((process_try src dst env reg).mkdirOn = some dst.dropLast ∧
      ((process_try src dst env reg).outcome = .Copied ∨
        ∃ e, (process_try src dst env reg).outcome = .Failed src e)) := by
  unfold process_try
  cases env.dstExists with
  | error e => exact Or.inl ⟨rfl, Or.inr ⟨e, rfl⟩⟩
  | ok b =>
      cases b with
      | false =>
          exact Or.inr ⟨process_copy_mkdirOn src dst env reg,
            process_copy_outcome src dst env reg⟩
      | true =>
          cases env.srcStat with
          | error e => exact Or.inl ⟨rfl, Or.inr ⟨e, rfl⟩⟩
          | ok s =>
              cases env.dstStat with
              | error e => exact Or.inl ⟨rfl, Or.inr ⟨e, rfl⟩⟩
              | ok d =>
                  by_cases hc : s.st_size = d.st_size ∧ s.st_mtime ≤ d.st_mtime + 5
                  · simp only [if_pos hc]
                    simp
                  · simp only [if_neg hc]
                    exact Or.inr ⟨process_copy_mkdirOn src dst env reg,
                      process_copy_outcome src dst env reg⟩

theorem process_file_mkdir_cases (src dst : Path) (env : FileEnv) (reg : Finset Fingerprint) :
    ((process_file src dst env reg).mkdirOn = none ∧
      ((process_file src dst env reg).outcome = .SkippedDuplicate ∨
        (process_file src dst env reg).outcome = .SkippedUnchanged ∨
        ∃ e, (process_file src dst env reg).outcome = .Failed src e)) ∨
    ((process_file src dst env reg).mkdirOn = some dst.dropLast ∧
      ((process_file src dst env reg).outcome = .Copied ∨
        ∃ e, (process_file src dst env reg).outcome = .Failed src e)) := by
  rcases process_file_shape src dst env reg with h | ⟨fp, hfp, hmem, h⟩ | ⟨fp, hfp, hmem, h⟩ <;>
    rw [h]
  · rcases process_try_mkdir_cases src dst env reg with ⟨hm, ho⟩ | ⟨hm, ho⟩
    · exact Or.inl ⟨hm, ho.elim (fun h' => Or.inr (Or.inl h')) (fun h' => Or.inr (Or.inr h'))⟩
    · exact Or.inr ⟨hm, ho⟩
  · rcases process_try_mkdir_cases src dst env (insert fp reg) with ⟨hm, ho⟩ | ⟨hm, ho⟩
    · exact Or.inl ⟨hm, ho.elim (fun h' => Or.inr (Or.inl h')) (fun h' => Or.inr (Or.inr h'))⟩
    · exact Or.inr ⟨hm, ho⟩
  · exact Or.inl ⟨rfl, Or.inl rfl⟩

theorem runSync_mem_results (items : List (Candidate × FileEnv)) (reg0 : Finset Fingerprint) :
    ∀ r ∈ (runSync items reg0).1,
      ∃ src dst env reg, r = process_file src dst env reg := by
  induction items generalizing reg0 with
  | nil =>
      intro r hr
      exact absurd hr (List.not_mem_nil r)
  | cons it rest ih =>
      obtain ⟨c, env⟩ := it
      intro r hr
      simp only [runSync] at hr
      rcases List.mem_cons.mp hr with h | h
      · exact ⟨c.1, c.2, env, reg0, h⟩
      · exact ih _ r h

/-- C10: a `mkdir` is issued by `process_file` only on the parent chain of
the destination of a candidate it is about to copy — never on a skip —
so in a whole run in which every candidate is skipped as duplicate or
unchanged no destination directory is ever created, and an empty source
directory yields no candidates at all. -/
theorem c10_no_dirs_without_copy (src dst : Path) (env : FileEnv)
    (reg : Finset Fingerprint) (items : List (Candidate × FileEnv))
    (reg0 : Finset Fingerprint) :
    ((process_file src dst env reg).mkdirOn = none ∨
      (process_file src dst env reg).mkdirOn = some dst.dropLast) ∧
    ((process_file src dst env reg).outcome = .SkippedDuplicate ∨
        (process_file src dst env reg).outcome = .SkippedUnchanged →
      (process_file src dst env reg).mkdirOn = none) ∧
    ((process_file src dst env reg).mkdirOn ≠ none →
      (process_file src dst env reg).outcome = .Copied ∨
      ∃ e, (process_file src dst env reg).outcome = .Failed src e) ∧
    (∀ r ∈ (runSync items reg0).1,
      (r.outcome = .SkippedDuplicate ∨ r.outcome = .SkippedUnchanged) →
      r.mkdirOn = none) ∧
    osWalk src dst Forest.nil = [] := by
  refine ⟨?_, ?_, ?_, ?_, rfl⟩
  · rcases process_file_mkdir_cases src dst env reg with ⟨hm, _⟩ | ⟨hm, _⟩
    · exact Or.inl hm
    · exact Or.inr hm
  · intro hskip
    rcases process_file_mkdir_cases src dst env reg with ⟨hm, _⟩ | ⟨_, ho⟩
    · exact hm
    · exfalso
      rcases hskip with h | h <;> rw [h] at ho <;>
        rcases ho with h' | ⟨e, h'⟩ <;> exact CopyOutcome.noConfusion h'
  · intro hne
    rcases process_file_mkdir_cases src dst env reg with ⟨hm, _⟩ | ⟨_, ho⟩
    · exact absurd hm hne
    · exact ho
  · intro r hr hskip
    obtain ⟨s', d', e', rg, hre⟩ := runSync_mem_results items reg0 r hr
    rw [hre] at hskip ⊢
    rcases process_file_mkdir_cases s' d' e' rg with ⟨hm, _⟩ | ⟨_, ho⟩
    · exact hm
    · exfalso
      rcases hskip with h | h <;> rw [h] at ho <;>
        rcases ho with h' | ⟨e, h'⟩ <;> exact CopyOutcome.noConfusion h'

def regDup : Finset Fingerprint := {("a.txt", 100, int_trunc 10)}

theorem c10_no_dirs_without_copy_witness :
    (process_file ["s", "a.txt"] ["d", "a.txt"] envUnchanged regDup).mkdirOn = none :=
  (c10_no_dirs_without_copy ["s", "a.txt"] ["d", "a.txt"] envUnchanged regDup [] ∅).2.1
    (Or.inl (by
      rw [process_file_of_dup ["s", "a.txt"] ["d", "a.txt"] envUnchanged regDup
        ("a.txt", 100, int_trunc 10) rfl (Finset.mem_singleton_self _)]))

end BackupGDrive
